import Mathlib

/-!
Verification development for the Dependency Monkey stack generator
(`thoth/adviser/dependency_monkey.py`).

The module under study traverses a dependency graph and generates software
stacks, filling package digests from a package index and dispatching each
generated project to one of three output sinks (Amun inspection API,
filesystem directory, standard output).

The embedding below mirrors the Python module function by function.  External
collaborators that are not part of the module (the package index, the
dependency-graph construction, the filesystem predicate `os.path.isdir`) are
supplied through an explicit `Env` record; side effects (directory creation,
file writes, index queries, log records) are made explicit as an `Effect`
trace.  Two module-level facts of the source are modelled exactly as written:
the names `json`, `sys` and `amun_inspect` are never imported by the module,
so evaluating them raises `NameError` at call time.
-/

set_option maxHeartbeats 1000000

/-- A package pinned in a lockfile: name, locked version and the mutable
ordered list of content-hash strings (the project/version contract). -/
structure PackageVersion where
  name : String
  locked_version : String
  hashes : List String
deriving DecidableEq, Repr

/-- The lock object: two ordered collections of `PackageVersion`
(runtime packages and development packages). -/
structure PipfileLock where
  packages : List PackageVersion
  dev_packages : List PackageVersion
deriving DecidableEq, Repr

/-- A (generated) project; only its lockfile part is relevant to the
dependency-monkey module. -/
structure Project where
  pipfile_lock : PipfileLock
deriving DecidableEq, Repr

/-- All locked packages of a project, runtime packages first, as iterated by
`chain(pipfile_lock.packages, pipfile_lock.dev_packages)`. -/
def allPackages (p : Project) : List PackageVersion :=
  p.pipfile_lock.packages ++ p.pipfile_lock.dev_packages

/-- One entry returned by the package index hash lookup: a map from digest
algorithm to value; only the sha256 field is read. -/
structure HashEntry where
  sha256 : String
deriving DecidableEq, Repr

/-- State of the pseudo-random generator (Python global `random` module
state), modelled as a plain number. -/
abbrev Rng := Nat

/-- Modelled from the spec: a decision function receives the partial
assignment of the product-space walk and decides whether to continue
deepening the path, consuming pseudo-randomness from the run generator. -/
abbrev DecisionFunction := List PackageVersion → Rng → Bool × Rng

/-- Modelled from the spec: the exhaustive decision function, registry key
"all", always continues and consumes no randomness. -/
def allDecision : DecisionFunction := fun _ g => (true, g)

/-- Modelled from the spec: the "sampling" decision function continues with a
fixed probability, drawing from the run generator (a linear congruential
step stands in for the concrete distribution). -/
def samplingDecision : DecisionFunction := fun _ g =>
  let g2 := (g * 1103515245 + 12345) % 2147483648
  (g2 % 2 == 0, g2)

/-- Modelled from the spec: the fixed decision-function registry of
`thoth.adviser.python` (name kept as spelled in the source import). -/
def DECISISON_FUNCTIONS : List (String × DecisionFunction) :=
  [("all", allDecision), ("sampling", samplingDecision)]

/-- The `decision not in DECISISON_FUNCTIONS` check plus the registry lookup;
a missing decision name (including `None`) has no entry. -/
def lookupDecisionFunction : Option String → Option DecisionFunction
  | some d => DECISISON_FUNCTIONS.lookup d
  | none => none

/-- Models `random.seed(seed)`: a concrete seed value replaces the global
generator state by one derived from the seed alone; `random.seed(None)`
derives it from ambient entropy, for which the incoming state stands. -/
def randomSeed : Option Int → Rng → Rng
  | some s, _ => s.natAbs + 1
  | none, g0 => g0

/-- Modelled from the spec: the dependency graph maps each package name to
its ordered candidate versions; it is built once per run and read-only
thereafter. -/
structure DependencyGraph where
  packages : List (String × List PackageVersion)
deriving Repr

/-- A fully materialized project produced by the walk: every package of the
assignment pinned, development packages empty. -/
def projectOfAssignment (asgn : List PackageVersion) : Project :=
  { pipfile_lock := { packages := asgn, dev_packages := [] } }

/-- Modelled from the spec: inner loop of the product-space walk over the
candidate versions of the current package name.  `walkRest` continues the
depth-first exploration below an accepted candidate. -/
def walkCands (decision_function : DecisionFunction)
    (walkRest : List PackageVersion → Rng → List (List PackageVersion) × Rng) :
    List PackageVersion → List PackageVersion → Rng → List (List PackageVersion) × Rng
  | [], _, g => ([], g)
  | v :: vs, asgn, g =>
    let pa := asgn ++ [v]
    let cg := decision_function pa g
    if cg.1 then
      let sub := walkRest pa cg.2
      let more := walkCands decision_function walkRest vs asgn sub.2
      (sub.1 ++ more.1, more.2)
    else
      walkCands decision_function walkRest vs asgn cg.2

/-- Modelled from the spec: depth-first exploration of the product space,
one package name after the other; at each partial assignment the decision
function decides whether to deepen the path. -/
def walkAux (decision_function : DecisionFunction) :
    List (String × List PackageVersion) →
      List PackageVersion → Rng → List (List PackageVersion) × Rng
  | [] => fun asgn g => ([asgn], g)
  | nv :: rest => fun asgn g =>
      walkCands decision_function (walkAux decision_function rest) nv.2 asgn g

/-- Modelled from the spec: `DependencyGraph.walk(decision_function)`
produces the sequence of fully materialized projects admitted by the
decision function, threading the run generator. -/
def DependencyGraph.walk (graph : DependencyGraph)
    (decision_function : DecisionFunction) (g : Rng) : List Project × Rng :=
  let ag := walkAux decision_function graph.packages [] g
  (ag.1.map projectOfAssignment, ag.2)

/-- External collaborators of the module: the warehouse configuration
(`thoth.adviser.configuration.config.warehouses`), the package index hash
lookup (`Source.get_package_hashes`, fallible), the dependency-graph
construction (`DependencyGraph.from_project`, an external discovery over the
package index) and the filesystem predicate `os.path.isdir`. -/
structure Env where
  warehouses : List String
  getPackageHashes : String → String → String → Except String (List HashEntry)
  fromProject : Project → DependencyGraph
  isdir : String → Bool

/-- The sequence of projects the walk yields for a run (graph built from the
project, then walked with the decision function and the seeded generator). -/
def walkedProjects (env : Env) (project : Project)
    (decision_function : DecisionFunction) (g : Rng) : List Project :=
  (DependencyGraph.walk (env.fromProject project) decision_function g).1

/-- Observable side effects of a run. -/
inductive Effect where
  | graphBuilt
  | indexQuery (warehouse : String) (pkg : String) (version : String)
  | makedirs (path : String)
  | toFiles (pipfilePath : String) (lockPath : String) (project : Project)
  | amunSubmit (url : String) (project : Project)
  | stdoutWrite (text : String)
  | logError (msg : String)
  | logWarning (msg : String)
  | logInfo (msg : String)
  | logException (msg : String)
deriving DecidableEq, Repr

/-- Effects of the traversal itself (graph construction and package-index
hash queries), as opposed to output-sink effects. -/
def Effect.isTraversal : Effect → Bool
  | .graphBuilt => true
  | .indexQuery _ _ _ => true
  | _ => false

/-- Effects that are mere log records. -/
def Effect.isLogOnly : Effect → Bool
  | .logError _ => true
  | .logWarning _ => true
  | .logInfo _ => true
  | .logException _ => true
  | _ => false

/-- Boolean success test for a fallible computation. -/
def isOkE {α : Type} : Except String α → Bool
  | .ok _ => true
  | .error _ => false

/-- Python `str.startswith`, computed over the character lists. -/
def strStartsWith (s pre : String) : Bool :=
  pre.data.isPrefixOf s.data

/-- Python `str.endswith`, computed over the character lists. -/
def strEndsWith (s post : String) : Bool :=
  post.data.reverse.isPrefixOf s.data.reverse

/-- Python `os.path.join` for the two-argument calls the module performs. -/
def osPathJoin (a b : String) : String :=
  if strStartsWith b "/" then b
  else if a = "" then b
  else if strEndsWith a "/" then a ++ b
  else a ++ "/" ++ b

/-- The Python 05d format of the sequence number: decimal digits left-padded
with zeros to a minimum width of five. -/
def pad5 (n : Nat) : String :=
  let s := toString n
  String.mk (List.replicate (5 - s.length) '0') ++ s

/-- Models the call `amun_inspect(output, **context)` inside the wrapper:
the module never imports `amun_inspect`, so evaluating the name raises
`NameError` before any request leaves the process.  (The preceding in-place
update of the shared context dict is unobservable, since the context is only
ever read by this very call.) -/
def amun_inspect_call (output : String) (generated_project : Project) :
    Except String String :=
  .error "NameError: name amun_inspect is not defined"

/-- Wrapper `_dm_amun_inspect_wrapper`: submit one generated project to the Amun
inspection endpoint, returning the inspection id on success; any exception is
caught, logged, and turned into `None`. -/
def _dm_amun_inspect_wrapper (output : String) (generated_project : Project)
    (count : Nat) : Option String × List Effect :=
  match amun_inspect_call output generated_project with
  | .ok inspection_id =>
      (some inspection_id,
        [.amunSubmit output generated_project,
         .logInfo ("Submitted Amun inspection " ++ inspection_id)])
  | .error e =>
      (none, [.logException ("Failed to submit stack to Amun analysis: " ++ e)])

/-- Sink `_dm_amun_directory_output`: create the per-stack subdirectory named by
the zero-padded sequence number and write the Pipfile/Pipfile.lock pair
into it; the subdirectory path is returned. -/
def _dm_amun_directory_output (output : String) (generated_project : Project)
    (count : Nat) : Option String × List Effect :=
  let path := osPathJoin output (pad5 count)
  (some path,
    [.makedirs path,
     .toFiles (osPathJoin path "Pipfile") (osPathJoin path "Pipfile.lock")
       generated_project])

/-- Sink `_dm_stdout_output`: the module never imports `json` or `sys`, so
evaluating the name `json` raises an uncaught `NameError` before any
serialization takes place. -/
def _dm_stdout_output (generated_project : Project) (count : Nat) :
    Except String (Option String × List Effect) :=
  .error "NameError: name json is not defined"

/-- The hash string appended per index entry: the literal prefix `sha256:`
concatenated with the sha256 value of the entry. -/
def sha256Entry (entry : HashEntry) : String :=
  "sha256:" ++ entry.sha256

/-- Fill the digests of one locked package: a package that already has at
least one hash is skipped; otherwise the first-warehouse index is queried and
each returned sha256 value is appended as a `sha256:`-prefixed string. -/
def fillOnePackage (env : Env) (w : String) (pv : PackageVersion) :
    Except String (PackageVersion × List Effect) :=
  if pv.hashes ≠ [] then .ok (pv, [])
  else
    match env.getPackageHashes w pv.name pv.locked_version with
    | .error e => .error e
    | .ok scanned_hashes =>
        .ok ({ pv with hashes := pv.hashes ++ scanned_hashes.map sha256Entry },
             [.indexQuery w pv.name pv.locked_version])

/-- Digest filling over an ordered collection of packages; a lookup failure
propagates (the source wraps no try/except around the index call). -/
def fillPkgList (env : Env) (w : String) :
    List PackageVersion → Except String (List PackageVersion × List Effect)
  | [] => .ok ([], [])
  | pv :: rest =>
    match fillOnePackage env w pv with
    | .error e => .error e
    | .ok pe =>
      match fillPkgList env w rest with
      | .error e => .error e
      | .ok re => .ok (pe.1 :: re.1, pe.2 ++ re.2)

/-- Function `_fill_package_digests`: pick the first configured warehouse and fill the
missing hashes of every package in `chain(packages, dev_packages)`. -/
def _fill_package_digests (env : Env) (generated_project : Project) :
    Except String (Project × List Effect) :=
  match env.warehouses with
  | [] => .error "IndexError: list index out of range"
  | w :: _ =>
    match fillPkgList env w generated_project.pipfile_lock.packages with
    | .error e => .error e
    | .ok pk =>
      match fillPkgList env w generated_project.pipfile_lock.dev_packages with
      | .error e => .error e
      | .ok dv =>
          .ok ({ pipfile_lock := { packages := pk.1, dev_packages := dv.1 } },
               pk.2 ++ dv.2)

/-- The result dict of a run: recorded output entries and the computed
stack count. -/
structure DMResult where
  output : List String
  computed : Nat
deriving DecidableEq, Repr

/-- The check `if entry: result[output].append(entry)` — only truthy (non-`None`,
non-empty) entries are recorded. -/
def appendEntry (out : List String) : Option String → List String
  | some s => if s = "" then out else out ++ [s]
  | none => out

/-- The break condition `count is not None and computed >= count` checked
after each processed project. -/
def stopAfter : Option Int → Nat → Bool
  | some c, computed => decide (c ≤ (computed : Int))
  | none, _ => false

/-- The `for generated_project in dependency_graph.walk(...)` loop body of
`_do_dependency_monkey`: count the project, fill its digests, dispatch it to
the output function unless dry-running, record a truthy entry, and stop once
the count bound is reached. -/
def dmLoop (env : Env)
    (output_function : Project → Nat → Except String (Option String × List Effect))
    (count : Option Int) (dry_run : Bool) :
    List Project → Nat → List String → List Effect →
      Except String (DMResult × List Effect)
  | [], computed, out, effs => .ok ({ output := out, computed := computed }, effs)
  | gp :: rest, computed, out, effs =>
    match _fill_package_digests env gp with
    | .error e => .error e
    | .ok fe =>
      if dry_run then
        if stopAfter count (computed + 1) then
          .ok ({ output := out, computed := computed + 1 }, effs ++ fe.2)
        else
          dmLoop env output_function count dry_run rest (computed + 1) out
            (effs ++ fe.2)
      else
        match output_function fe.1 (computed + 1) with
        | .error e => .error e
        | .ok eo =>
          if stopAfter count (computed + 1) then
            .ok ({ output := appendEntry out eo.1, computed := computed + 1 },
                 effs ++ fe.2 ++ eo.2)
          else
            dmLoop env output_function count dry_run rest (computed + 1)
              (appendEntry out eo.1) (effs ++ fe.2 ++ eo.2)

/-- Function `_do_dependency_monkey`: build the dependency graph once, walk it with
the decision function, and run the generation loop. -/
def _do_dependency_monkey (env : Env) (project : Project)
    (output_function : Project → Nat → Except String (Option String × List Effect))
    (decision_function : DecisionFunction) (count : Option Int)
    (dry_run : Bool) (g : Rng) : Except String (DMResult × List Effect) :=
  dmLoop env output_function count dry_run
    (walkedProjects env project decision_function g) 0 [] [Effect.graphBuilt]

/-- Reference count of processed projects: one per walked project until the
break condition fires. -/
def loopCount (count : Option Int) : List Project → Nat → Nat
  | [], b => b
  | _ :: rest, b => if stopAfter count (b + 1) then b + 1 else loopCount count rest (b + 1)

/-- Reference trace of the digest-filling queries the loop performs (the
traversal effects of a run, sink effects excluded). -/
def fillEffs (env : Env) (count : Option Int) : List Project → Nat → List Effect
  | [], _ => []
  | gp :: rest, b =>
    match _fill_package_digests env gp with
    | .error _ => []
    | .ok fe =>
        fe.2 ++ (if stopAfter count (b + 1) then [] else fillEffs env count rest (b + 1))

/-- What `dependency_monkey` hands back to its caller: a raised ValueError,
one of the integer error codes 1/2/3, an uncaught exception from the
generation loop, or the result dict. -/
inductive DMReturn where
  | valueError (msg : String)
  | exitCode (code : Nat)
  | pyError (msg : String)
  | result (r : DMResult)
deriving DecidableEq, Repr

/-- Python truthiness of the optional context string. -/
def contextTruthy : Option String → Bool
  | some s => s ≠ ""
  | none => false

/-- The check `count is not None and count <= 0`. -/
def countNonPositive : Option Int → Bool
  | some c => decide (c ≤ 0)
  | none => false

/-- The Amun output function as composed in the dispatch
(`partial(_dm_amun_inspect_wrapper, output, context)`); the wrapper
swallows every exception, so the composed function is total. -/
def amunOutput (output : String) :
    Project → Nat → Except String (Option String × List Effect) :=
  fun p c => .ok (_dm_amun_inspect_wrapper output p c)

/-- The directory output function as composed in the dispatch
(`partial(_dm_amun_directory_output, output)`). -/
def dirOutput (output : String) :
    Project → Nat → Except String (Option String × List Effect) :=
  fun p c => .ok (_dm_amun_directory_output output p c)

/-- Entry point `dependency_monkey`: validate the decision-function name, seed the global
generator, validate the count bound, choose the output sink from the
destination string, and run the generation loop.  `g0` is the state of the
global generator before the call. -/
def dependency_monkey (env : Env) (project : Project) (output : String)
    (seed : Option Int) (decision : Option String) (dry_run : Bool)
    (context : Option String) (count : Option Int) (g0 : Rng) :
    DMReturn × List Effect :=
  match lookupDecisionFunction decision with
  | none => (.valueError "Decision function is not known", [])
  | some decision_function =>
    let g := randomSeed seed g0
    if countNonPositive count then
      (.exitCode 3, [.logError "Number of stacks has to be a positive integer"])
    else if strStartsWith output "https://" || strStartsWith output "http://" then
      if contextTruthy context then
        (.exitCode 1,
          [.logError
            "Failed to load Amun context that should be passed with generated stacks: name json is not defined"])
      else
        let effs0 := [Effect.logWarning "Context to Amun API is empty"]
        match _do_dependency_monkey env project (amunOutput output)
            decision_function count dry_run g with
        | .ok re => (.result re.1, effs0 ++ re.2)
        | .error e => (.pyError e, effs0)
    else if output = "-" then
      match _do_dependency_monkey env project _dm_stdout_output
          decision_function count dry_run g with
      | .ok re => (.result re.1, re.2)
      | .error e => (.pyError e, [])
    else
      if contextTruthy context then
        (.exitCode 2,
          [.logError "Unable to use context when writing generated projects onto filesystem"])
      else
        let effs0 := if env.isdir output then [] else [Effect.makedirs output]
        match _do_dependency_monkey env project (dirOutput output)
            decision_function count dry_run g with
        | .ok re => (.result re.1, effs0 ++ re.2)
        | .error e => (.pyError e, effs0)


instance exceptDecEq {e a : Type} [DecidableEq e] [DecidableEq a] :
    DecidableEq (Except e a)
  | .ok x, .ok y =>
    if h : x = y then isTrue (h ▸ rfl) else isFalse (fun hc => h (Except.ok.inj hc))
  | .error x, .error y =>
    if h : x = y then isTrue (h ▸ rfl) else isFalse (fun hc => h (Except.error.inj hc))
  | .ok x, .error y => isFalse (fun hc => Except.noConfusion hc)
  | .error x, .ok y => isFalse (fun hc => Except.noConfusion hc)

/-- Candidate versions used in the concrete runs below. -/
def candA1 : PackageVersion := { name := "a", locked_version := "1.0", hashes := [] }

def candA2 : PackageVersion := { name := "a", locked_version := "2.0", hashes := [] }

def candA3 : PackageVersion := { name := "a", locked_version := "3.0", hashes := [] }

/-- The input project handed to the generator in the concrete runs (its own
lockfile plays no role in stack generation). -/
def proj0 : Project := { pipfile_lock := { packages := [], dev_packages := [] } }

/-- One direct dependency with three candidate versions; every hash lookup
succeeds with a single digest. -/
def envThree : Env :=
  { warehouses := ["w"],
    getPackageHashes := fun _ _ _ => .ok [{ sha256 := "d1" }],
    fromProject := fun _ => { packages := [("a", [candA1, candA2, candA3])] },
    isdir := fun _ => true }

/-- One direct dependency with two candidate versions; the index returns no
digests and the destination directory already exists. -/
def envTwo : Env :=
  { warehouses := ["w"],
    getPackageHashes := fun _ _ _ => .ok [],
    fromProject := fun _ => { packages := [("a", [candA1, candA2])] },
    isdir := fun _ => true }

/-- Same graph as `envTwo` but every hash lookup fails. -/
def envFail : Env :=
  { warehouses := ["w"],
    getPackageHashes := fun _ _ _ => .error "boom",
    fromProject := fun _ => { packages := [("a", [candA1, candA2])] },
    isdir := fun _ => true }

/-- An index knowing digests for package b only; graph irrelevant. -/
def envMix : Env :=
  { warehouses := ["w"],
    getPackageHashes := fun _ pkg _ =>
      if pkg = "b" then .ok [{ sha256 := "bb" }] else .ok [],
    fromProject := fun _ => { packages := [] },
    isdir := fun _ => true }

def pvHashed : PackageVersion :=
  { name := "a", locked_version := "1.0", hashes := ["sha256:old"] }

def pvBare : PackageVersion :=
  { name := "b", locked_version := "2.0", hashes := [] }

/-- A generated project with one already-hashed and one hashless package. -/
def projMix : Project :=
  { pipfile_lock := { packages := [pvHashed, pvBare], dev_packages := [] } }

/-- The hashless package `pvBare` after digest filling. -/
def pvBareFilled : PackageVersion :=
  { name := "b", locked_version := "2.0", hashes := ["sha256:bb"] }

/-- Project `projMix` after one pass of digest filling. -/
def projMixFilled : Project :=
  { pipfile_lock := { packages := [pvHashed, pvBareFilled], dev_packages := [] } }

/-- The index queries of that one pass. -/
def effsMix : List Effect := [Effect.indexQuery "w" "b" "2.0"]

/-- Literal outcome of the two-stack directory run used below. -/
def runTwoResult : DMResult := { output := ["out/00001", "out/00002"], computed := 2 }

/-- Literal effect trace of the two-stack directory run used below. -/
def runTwoEffs : List Effect :=
  [Effect.graphBuilt,
   Effect.indexQuery "w" "a" "1.0",
   Effect.makedirs "out/00001",
   Effect.toFiles "out/00001/Pipfile" "out/00001/Pipfile.lock"
     (projectOfAssignment [candA1]),
   Effect.indexQuery "w" "a" "2.0",
   Effect.makedirs "out/00002",
   Effect.toFiles "out/00002/Pipfile" "out/00002/Pipfile.lock"
     (projectOfAssignment [candA2])]

theorem fillOnePackage_skip (env : Env) (w : String) (pv : PackageVersion)
    (h : pv.hashes ≠ []) : fillOnePackage env w pv = Except.ok (pv, []) := by
  simp [fillOnePackage, h]

theorem fillOnePackage_query (env : Env) (w : String) (pv : PackageVersion)
    (hs : List HashEntry) (h : pv.hashes = [])
    (hg : env.getPackageHashes w pv.name pv.locked_version = Except.ok hs) :
    fillOnePackage env w pv =
      Except.ok ({ pv with hashes := pv.hashes ++ hs.map sha256Entry },
                 [Effect.indexQuery w pv.name pv.locked_version]) := by
  simp [fillOnePackage, h, hg]

theorem fillOnePackage_fail (env : Env) (w : String) (pv : PackageVersion)
    (e : String) (h : pv.hashes = [])
    (hg : env.getPackageHashes w pv.name pv.locked_version = Except.error e) :
    fillOnePackage env w pv = Except.error e := by
  simp [fillOnePackage, h, hg]

theorem fillPkgList_isOk (env : Env) (w : String)
    (hidx : ∀ pkg v, isOkE (env.getPackageHashes w pkg v) = true) :
    ∀ l, isOkE (fillPkgList env w l) = true := by
  intro l
  induction l with
  | nil => rfl
  | cons pv rest ih =>
    simp only [fillPkgList]
    by_cases hpv : pv.hashes = []
    · have hx := hidx pv.name pv.locked_version
      cases hg : env.getPackageHashes w pv.name pv.locked_version with
      | error e => rw [hg] at hx; simp [isOkE] at hx
      | ok hs =>
        rw [fillOnePackage_query env w pv hs hpv hg]
        cases hr : fillPkgList env w rest with
        | error e => rw [hr] at ih; simp [isOkE] at ih
        | ok re => simp [isOkE]
    · rw [fillOnePackage_skip env w pv hpv]
      cases hr : fillPkgList env w rest with
      | error e => rw [hr] at ih; simp [isOkE] at ih
      | ok re => simp [isOkE]

theorem fill_package_digests_isOk (env : Env)
    (hw : env.warehouses ≠ [])
    (hidx : ∀ w pkg v, isOkE (env.getPackageHashes w pkg v) = true)
    (p : Project) : isOkE (_fill_package_digests env p) = true := by
  simp only [_fill_package_digests]
  cases hws : env.warehouses with
  | nil => exact absurd hws hw
  | cons w ws =>
    have h1 := fillPkgList_isOk env w (hidx w) p.pipfile_lock.packages
    have h2 := fillPkgList_isOk env w (hidx w) p.pipfile_lock.dev_packages
    cases hr1 : fillPkgList env w p.pipfile_lock.packages with
    | error e => rw [hr1] at h1; simp [isOkE] at h1
    | ok pk =>
      cases hr2 : fillPkgList env w p.pipfile_lock.dev_packages with
      | error e => rw [hr2] at h2; simp [isOkE] at h2
      | ok dv => simp [hr1, hr2, isOkE]

theorem fillPkgList_spec (env : Env) (w : String) :
    ∀ (l l2 : List PackageVersion) (es : List Effect),
      fillPkgList env w l = Except.ok (l2, es) →
      es = l.filterMap (fun pv =>
        if pv.hashes = [] then
          some (Effect.indexQuery w pv.name pv.locked_version) else none) ∧
      List.Forall₂ (fun pv qv =>
        (pv.hashes ≠ [] → qv = pv) ∧
        (pv.hashes = [] →
          ∃ hs, env.getPackageHashes w pv.name pv.locked_version = Except.ok hs ∧
            qv = { pv with hashes := pv.hashes ++ hs.map sha256Entry })) l l2 ∧
      fillPkgList env w l2 = Except.ok (l2, l2.filterMap (fun pv =>
        if pv.hashes = [] then
          some (Effect.indexQuery w pv.name pv.locked_version) else none)) := by
  intro l
  induction l with
  | nil =>
    intro l2 es h
    simp only [fillPkgList, Except.ok.injEq, Prod.mk.injEq] at h
    obtain ⟨h1, h2⟩ := h
    subst h1; subst h2
    exact ⟨rfl, List.Forall₂.nil, rfl⟩
  | cons pv rest ih =>
    intro l2 es h
    by_cases hpv : pv.hashes = []
    · cases hg : env.getPackageHashes w pv.name pv.locked_version with
      | error e =>
        rw [fillPkgList, fillOnePackage_fail env w pv e hpv hg] at h
        simp at h
      | ok hs =>
        cases hr : fillPkgList env w rest with
        | error e =>
          rw [fillPkgList, fillOnePackage_query env w pv hs hpv hg, hr] at h
          simp at h
        | ok re =>
          obtain ⟨rl, res⟩ := re
          rw [fillPkgList, fillOnePackage_query env w pv hs hpv hg, hr] at h
          simp only [Except.ok.injEq, Prod.mk.injEq] at h
          obtain ⟨h1, h2⟩ := h
          obtain ⟨e1, f1, s1⟩ := ih rl res hr
          subst h1; subst h2
          refine ⟨?_, ?_, ?_⟩
          · simp [List.filterMap_cons, hpv, e1]
          · exact List.Forall₂.cons
              ⟨fun hne => absurd hpv hne, fun _ => ⟨hs, hg, rfl⟩⟩ f1
          · by_cases hhs : hs = []
            · subst hhs
              have hmap : ({ pv with hashes := pv.hashes ++ List.map sha256Entry [] } : PackageVersion).hashes = [] := by
                simp [hpv]
              rw [fillPkgList, fillOnePackage_query env w _ [] hmap hg, s1]
              simp [List.filterMap_cons, hmap, hpv]
            · have hmap : ({ pv with hashes := pv.hashes ++ hs.map sha256Entry } : PackageVersion).hashes ≠ [] := by
                simp only [hpv, List.nil_append, ne_eq, List.map_eq_nil_iff]
                exact hhs
              rw [fillPkgList, fillOnePackage_skip env w _ hmap, s1]
              simp [List.filterMap_cons, hmap]
    · cases hr : fillPkgList env w rest with
      | error e =>
        rw [fillPkgList, fillOnePackage_skip env w pv hpv, hr] at h
        simp at h
      | ok re =>
        obtain ⟨rl, res⟩ := re
        rw [fillPkgList, fillOnePackage_skip env w pv hpv, hr] at h
        simp only [Except.ok.injEq, Prod.mk.injEq, List.nil_append] at h
        obtain ⟨h1, h2⟩ := h
        obtain ⟨e1, f1, s1⟩ := ih rl res hr
        subst h1; subst h2
        refine ⟨?_, ?_, ?_⟩
        · simp [List.filterMap_cons, hpv, e1]
        · exact List.Forall₂.cons ⟨fun _ => rfl, fun he => absurd he hpv⟩ f1
        · rw [fillPkgList, fillOnePackage_skip env w pv hpv, s1]
          simp [List.filterMap_cons, hpv]

theorem fill_digests_spec (env : Env) (w : String) (ws : List String)
    (p q : Project) (effs : List Effect)
    (hw : env.warehouses = w :: ws)
    (h : _fill_package_digests env p = Except.ok (q, effs)) :
    effs = (allPackages p).filterMap (fun pv =>
      if pv.hashes = [] then
        some (Effect.indexQuery w pv.name pv.locked_version) else none) ∧
    List.Forall₂ (fun pv qv =>
      (pv.hashes ≠ [] → qv = pv) ∧
      (pv.hashes = [] →
        ∃ hs, env.getPackageHashes w pv.name pv.locked_version = Except.ok hs ∧
          qv = { pv with hashes := pv.hashes ++ hs.map sha256Entry }))
      (allPackages p) (allPackages q) ∧
    _fill_package_digests env q =
      Except.ok (q, (allPackages q).filterMap (fun pv =>
        if pv.hashes = [] then
          some (Effect.indexQuery w pv.name pv.locked_version) else none)) := by
  simp only [_fill_package_digests, hw] at h
  cases hr1 : fillPkgList env w p.pipfile_lock.packages with
  | error e => rw [hr1] at h; simp at h
  | ok pk =>
    obtain ⟨pkl, pke⟩ := pk
    cases hr2 : fillPkgList env w p.pipfile_lock.dev_packages with
    | error e => rw [hr1, hr2] at h; simp at h
    | ok dv =>
      obtain ⟨dvl, dve⟩ := dv
      rw [hr1, hr2] at h
      simp only [Except.ok.injEq, Prod.mk.injEq] at h
      obtain ⟨hq, he⟩ := h
      obtain ⟨e1, f1, s1⟩ := fillPkgList_spec env w _ _ _ hr1
      obtain ⟨e2, f2, s2⟩ := fillPkgList_spec env w _ _ _ hr2
      subst hq
      refine ⟨?_, ?_, ?_⟩
      · rw [← he]
        simp [allPackages, List.filterMap_append, e1, e2]
      · have := List.rel_append f1 f2
        simpa [allPackages] using this
      · simp only [_fill_package_digests]
        rw [hw]
        simp only [allPackages]
        rw [s1, s2]
        simp [List.filterMap_append]

theorem dmLoop_effs_mono (env : Env)
    (outf : Project → Nat → Except String (Option String × List Effect))
    (cnt : Option Int) (dry : Bool) :
    ∀ (l : List Project) (b : Nat) (out : List String) (effs effs2 : List Effect)
      (r : DMResult),
      dmLoop env outf cnt dry l b out effs = Except.ok (r, effs2) →
      ∃ t, effs2 = effs ++ t := by
  intro l
  induction l with
  | nil =>
    intro b out effs effs2 r h
    simp only [dmLoop, Except.ok.injEq, Prod.mk.injEq] at h
    exact ⟨[], by rw [← h.2]; simp⟩
  | cons gp rest ih =>
    intro b out effs effs2 r h
    cases hf : _fill_package_digests env gp with
    | error e => simp [dmLoop, hf] at h
    | ok fe =>
      simp only [dmLoop, hf] at h
      cases dry with
      | true =>
        rw [if_pos rfl] at h
        by_cases hs : stopAfter cnt (b + 1) = true
        · rw [if_pos hs] at h
          simp only [Except.ok.injEq, Prod.mk.injEq] at h
          exact ⟨fe.2, h.2.symm⟩
        · rw [if_neg hs] at h
          obtain ⟨t, ht⟩ := ih _ _ _ _ _ h
          exact ⟨fe.2 ++ t, by rw [ht]; simp⟩
      | false =>
        rw [if_neg Bool.false_ne_true] at h
        cases ho : outf fe.1 (b + 1) with
        | error e => simp [ho] at h
        | ok eo =>
          simp only [ho] at h
          by_cases hs : stopAfter cnt (b + 1) = true
          · rw [if_pos hs] at h
            simp only [Except.ok.injEq, Prod.mk.injEq] at h
            exact ⟨fe.2 ++ eo.2, by rw [← h.2]; simp⟩
          · rw [if_neg hs] at h
            obtain ⟨t, ht⟩ := ih _ _ _ _ _ h
            exact ⟨fe.2 ++ eo.2 ++ t, by rw [ht]; simp⟩

theorem dmLoop_dry_spec (env : Env)
    (outf : Project → Nat → Except String (Option String × List Effect))
    (cnt : Option Int)
    (hfill : ∀ p, isOkE (_fill_package_digests env p) = true) :
    ∀ (l : List Project) (b : Nat) (out : List String) (effs : List Effect),
      dmLoop env outf cnt true l b out effs =
        Except.ok ({ output := out, computed := loopCount cnt l b },
                   effs ++ fillEffs env cnt l b) := by
  intro l
  induction l with
  | nil => intro b out effs; simp [dmLoop, loopCount, fillEffs]
  | cons gp rest ih =>
    intro b out effs
    have hx := hfill gp
    cases hf : _fill_package_digests env gp with
    | error e => rw [hf] at hx; simp [isOkE] at hx
    | ok fe =>
      simp only [dmLoop, hf, if_pos rfl]
      by_cases hs : stopAfter cnt (b + 1) = true
      · rw [if_pos hs]
        simp [loopCount, fillEffs, hf, hs]
      · rw [if_neg hs, ih]
        simp [loopCount, fillEffs, hf, hs]

theorem dmLoop_norm_spec (env : Env)
    (outf : Project → Nat → Except String (Option String × List Effect))
    (cnt : Option Int)
    (hfill : ∀ p, isOkE (_fill_package_digests env p) = true)
    (houtf : ∀ p k, isOkE (outf p k) = true) :
    ∀ (l : List Project) (b : Nat) (out : List String) (effs : List Effect),
      ∃ out2 effs2,
        dmLoop env outf cnt false l b out effs =
          Except.ok ({ output := out2, computed := loopCount cnt l b }, effs2) := by
  intro l
  induction l with
  | nil => intro b out effs; exact ⟨out, effs, by simp [dmLoop, loopCount]⟩
  | cons gp rest ih =>
    intro b out effs
    have hx := hfill gp
    cases hf : _fill_package_digests env gp with
    | error e => rw [hf] at hx; simp [isOkE] at hx
    | ok fe =>
      have hox := houtf fe.1 (b + 1)
      cases ho : outf fe.1 (b + 1) with
      | error e => rw [ho] at hox; simp [isOkE] at hox
      | ok eo =>
        by_cases hs : stopAfter cnt (b + 1) = true
        · refine ⟨appendEntry out eo.1, effs ++ fe.2 ++ eo.2, ?_⟩
          simp only [dmLoop, hf, ho, if_neg Bool.false_ne_true, if_pos hs]
          simp [loopCount, hs]
        · obtain ⟨o2, e2, hrec⟩ := ih (b + 1) (appendEntry out eo.1) (effs ++ fe.2 ++ eo.2)
          refine ⟨o2, e2, ?_⟩
          simp only [dmLoop, hf, ho, if_neg Bool.false_ne_true, if_neg hs]
          rw [hrec]
          simp [loopCount, hs]

theorem fill_effs_traversal (env : Env) (p : Project) (fe : Project × List Effect)
    (h : _fill_package_digests env p = Except.ok fe) :
    ∀ a ∈ fe.2, a.isTraversal = true := by
  obtain ⟨q, es⟩ := fe
  cases hw : env.warehouses with
  | nil => simp [_fill_package_digests, hw] at h
  | cons w ws =>
    obtain ⟨e1, _, _⟩ := fill_digests_spec env w ws p q es hw h
    intro a ha
    rw [e1] at ha
    obtain ⟨pv, _, hpv⟩ := List.mem_filterMap.mp ha
    by_cases hc : pv.hashes = []
    · rw [if_pos hc] at hpv
      cases hpv
      rfl
    · rw [if_neg hc] at hpv
      cases hpv

theorem dmLoop_norm_filter (env : Env)
    (outf : Project → Nat → Except String (Option String × List Effect))
    (cnt : Option Int)
    (houtq : ∀ p k x, outf p k = Except.ok x →
      x.2.filter Effect.isTraversal = []) :
    ∀ (l : List Project) (b : Nat) (out : List String) (effs effs2 : List Effect)
      (r : DMResult),
      dmLoop env outf cnt false l b out effs = Except.ok (r, effs2) →
      effs2.filter Effect.isTraversal =
        effs.filter Effect.isTraversal ++ fillEffs env cnt l b := by
  intro l
  induction l with
  | nil =>
    intro b out effs effs2 r h
    simp only [dmLoop, Except.ok.injEq, Prod.mk.injEq] at h
    rw [← h.2]
    simp [fillEffs]
  | cons gp rest ih =>
    intro b out effs effs2 r h
    cases hf : _fill_package_digests env gp with
    | error e => simp [dmLoop, hf] at h
    | ok fe =>
      simp only [dmLoop, hf, if_neg Bool.false_ne_true] at h
      cases ho : outf fe.1 (b + 1) with
      | error e => simp [ho] at h
      | ok eo =>
        simp only [ho] at h
        have hq := houtq fe.1 (b + 1) eo ho
        by_cases hs : stopAfter cnt (b + 1) = true
        · rw [if_pos hs] at h
          simp only [Except.ok.injEq, Prod.mk.injEq] at h
          rw [← h.2]
          have htrav := fill_effs_traversal env gp fe hf
          simp [fillEffs, hf, hs, List.filter_append, hq,
            List.filter_eq_self.mpr htrav]
        · rw [if_neg hs] at h
          have hrec := ih _ _ _ _ _ h
          rw [hrec]
          have htrav := fill_effs_traversal env gp fe hf
          simp [fillEffs, hf, hs, List.filter_append, hq,
            List.filter_eq_self.mpr htrav]

theorem loopCount_min (N : Nat) :
    ∀ (l : List Project) (b : Nat), b < N →
      loopCount (some (N : Int)) l b = min N (b + l.length) := by
  intro l
  induction l with
  | nil =>
    intro b hb
    simp only [loopCount, List.length_nil, Nat.add_zero]
    omega
  | cons gp rest ih =>
    intro b hb
    by_cases hs : stopAfter (some (N : Int)) (b + 1) = true
    · have hN : N ≤ b + 1 := by
        simp only [stopAfter, decide_eq_true_eq] at hs
        exact_mod_cast hs
      simp only [loopCount]
      rw [if_pos hs]
      simp only [List.length_cons]
      omega
    · have hN : ¬ N ≤ b + 1 := by
        intro hc
        apply hs
        simp only [stopAfter, decide_eq_true_eq]
        exact_mod_cast hc
      simp only [loopCount]
      rw [if_neg hs, ih (b + 1) (by omega)]
      simp only [List.length_cons]
      omega

theorem fillEffs_all_traversal (env : Env) (cnt : Option Int) :
    ∀ (l : List Project) (b : Nat),
      ∀ a ∈ fillEffs env cnt l b, a.isTraversal = true := by
  intro l
  induction l with
  | nil => intro b a ha; simp [fillEffs] at ha
  | cons gp rest ih =>
    intro b a ha
    cases hf : _fill_package_digests env gp with
    | error e => simp [fillEffs, hf] at ha
    | ok fe =>
      simp only [fillEffs, hf] at ha
      rw [List.mem_append] at ha
      cases ha with
      | inl h1 => exact fill_effs_traversal env gp fe hf a h1
      | inr h2 =>
        by_cases hs : stopAfter cnt (b + 1) = true
        · rw [if_pos hs] at h2; simp at h2
        · rw [if_neg hs] at h2; exact ih (b + 1) a h2

theorem dmLoop_dir_mem (env : Env) (dir : String) (cnt : Option Int) :
    ∀ (l : List Project) (b : Nat) (out : List String) (effs effs2 : List Effect)
      (r : DMResult),
      dmLoop env (dirOutput dir) cnt false l b out effs = Except.ok (r, effs2) →
      ∀ k, b < k → k ≤ r.computed →
        Effect.makedirs (osPathJoin dir (pad5 k)) ∈ effs2 ∧
        ∃ q, Effect.toFiles (osPathJoin (osPathJoin dir (pad5 k)) "Pipfile")
              (osPathJoin (osPathJoin dir (pad5 k)) "Pipfile.lock") q ∈ effs2 := by
  intro l
  induction l with
  | nil =>
    intro b out effs effs2 r h k hk1 hk2
    simp only [dmLoop, Except.ok.injEq, Prod.mk.injEq] at h
    obtain ⟨h1, h2⟩ := h
    rw [← h1] at hk2
    simp at hk2
    omega
  | cons gp rest ih =>
    intro b out effs effs2 r h k hk1 hk2
    cases hf : _fill_package_digests env gp with
    | error e => simp [dmLoop, hf] at h
    | ok fe =>
      simp only [dmLoop, hf, if_neg Bool.false_ne_true, dirOutput,
        _dm_amun_directory_output] at h
      by_cases hs : stopAfter cnt (b + 1) = true
      · rw [if_pos hs] at h
        simp only [Except.ok.injEq, Prod.mk.injEq] at h
        obtain ⟨h1, h2⟩ := h
        rw [← h1] at hk2
        simp at hk2
        have hkb : k = b + 1 := by omega
        subst hkb
        rw [← h2]
        constructor
        · simp [List.mem_append]
        · exact ⟨fe.1, by simp [List.mem_append]⟩
      · rw [if_neg hs] at h
        by_cases hkb : k = b + 1
        · subst hkb
          obtain ⟨t, ht⟩ := dmLoop_effs_mono env (dirOutput dir) cnt false rest
            _ _ _ _ _ h
          rw [ht]
          constructor
          · simp [List.mem_append]
          · exact ⟨fe.1, by simp [List.mem_append]⟩
        · have hkb2 : b + 1 < k := by omega
          exact ih _ _ _ _ _ h k hkb2 hk2

/-- Claim C2 (counterexample): with an index whose hash lookup fails and a
walk admitting two projects, the generation run does not continue past the
failed lookup — the whole run aborts with the lookup error instead of
returning a result. -/
theorem hash_lookup_failure_not_isolated_cex :
    envFail.getPackageHashes "w" "a" "1.0" = Except.error "boom" ∧
    (walkedProjects envFail proj0 allDecision 0).length = 2 ∧
    _do_dependency_monkey envFail proj0 (dirOutput "o") allDecision none false 0 =
      Except.error "boom" :=
  ⟨rfl, by decide, by decide⟩

/-- Claim C2 (amended): if the package-index hash lookup fails while filling
the digests of a generated project, the exception propagates out of the
hash-filling step, aborting the generation loop with that error; the
remaining projects are never processed. -/
theorem hash_lookup_failure_aborts_run (env : Env)
    (output_function : Project → Nat → Except String (Option String × List Effect))
    (count : Option Int) (dry_run : Bool) (p : Project) (rest : List Project)
    (b : Nat) (out : List String) (effs : List Effect) (e : String)
    (h : _fill_package_digests env p = Except.error e) :
    dmLoop env output_function count dry_run (p :: rest) b out effs =
      Except.error e := by
  simp [dmLoop, h]

/-- Witness for the amended C2 at a concrete failing input. -/
theorem hash_lookup_failure_aborts_run_witness :
    dmLoop envFail (dirOutput "o") none false
      (projectOfAssignment [candA1] :: [projectOfAssignment [candA2]]) 0 [] [] =
      Except.error "boom" :=
  hash_lookup_failure_aborts_run envFail (dirOutput "o") none false
    (projectOfAssignment [candA1]) [projectOfAssignment [candA2]] 0 [] [] "boom"
    (by decide)

/-- Claim C3: digest filling queries the index exactly for the packages that
lack hashes (a package with at least one hash is never queried), leaves every
already-hashed package unmodified, and a second pass over the filled project
returns it unchanged — all hashes placed by the first pass are untouched. -/
theorem fill_digests_idempotent (env : Env) (p q : Project) (effs : List Effect)
    (h : _fill_package_digests env p = Except.ok (q, effs)) :
    effs = (allPackages p).filterMap (fun pv =>
      if pv.hashes = [] then
        some (Effect.indexQuery (env.warehouses.headD "") pv.name pv.locked_version)
      else none) ∧
    List.Forall₂ (fun pv qv => pv.hashes ≠ [] → qv = pv)
      (allPackages p) (allPackages q) ∧
    ∃ effs2, _fill_package_digests env q = Except.ok (q, effs2) := by
  cases hw : env.warehouses with
  | nil => simp [_fill_package_digests, hw] at h
  | cons w ws =>
    obtain ⟨e1, f1, s1⟩ := fill_digests_spec env w ws p q effs hw h
    refine ⟨?_, ?_, ⟨_, s1⟩⟩
    · exact e1
    · exact f1.imp (fun a b hab => hab.1)

/-- Witness for C3: a second filling pass on the concretely filled project
returns it unchanged. -/
theorem fill_digests_idempotent_witness :
    ∃ effs2, _fill_package_digests envMix projMixFilled =
      Except.ok (projMixFilled, effs2) :=
  (fill_digests_idempotent envMix projMix projMixFilled effsMix (by decide)).2.2

/-- Claim C4: two stack-generation runs with the same concrete seed and the
same decision-function name produce identical outcomes (in particular
identical sequences of generated projects); the pre-existing state of the
global generator is irrelevant because random.seed(seed) replaces it. -/
theorem same_seed_same_generated_sequence (env : Env) (project : Project)
    (output : String) (s : Int) (decision : Option String) (dry_run : Bool)
    (context : Option String) (count : Option Int) (g1 g2 : Rng) :
    dependency_monkey env project output (some s) decision dry_run context count g1 =
    dependency_monkey env project output (some s) decision dry_run context count g2 := by
  simp only [dependency_monkey, randomSeed]

/-- Claim C9: a run invoked with a non-positive count bound is aborted as a
configuration error before any traversal: no result is produced, a known
decision name yields exit code 3 with only the error log, and the effect
trace holds log records only (no graph build, no query, no output write). -/
theorem nonpositive_count_aborts (env : Env) (project : Project) (output : String)
    (seed : Option Int) (decision : Option String) (dry_run : Bool)
    (context : Option String) (g0 : Rng) (c : Int) (hc : c ≤ 0) :
    (∀ r, (dependency_monkey env project output seed decision dry_run context
      (some c) g0).1 ≠ DMReturn.result r) ∧
    (∀ f, lookupDecisionFunction decision = some f →
      dependency_monkey env project output seed decision dry_run context
        (some c) g0 =
        (DMReturn.exitCode 3,
         [Effect.logError "Number of stacks has to be a positive integer"])) ∧
    (dependency_monkey env project output seed decision dry_run context
      (some c) g0).2.all Effect.isLogOnly = true := by
  have hcnp : countNonPositive (some c) = true := by
    simp [countNonPositive, hc]
  cases hd : lookupDecisionFunction decision with
  | none =>
    refine ⟨?_, ?_, ?_⟩
    · intro r
      simp [dependency_monkey, hd]
    · intro f hf
      exact Option.noConfusion hf
    · simp [dependency_monkey, hd]
  | some f0 =>
    refine ⟨?_, ?_, ?_⟩
    · intro r
      simp [dependency_monkey, hd, hcnp]
    · intro f hf
      simp [dependency_monkey, hd, hcnp]
    · simp [dependency_monkey, hd, hcnp, Effect.isLogOnly]

/-- Witness for C9 at count bound 0. -/
theorem nonpositive_count_aborts_witness :
    (∀ r, (dependency_monkey envTwo proj0 "out" none (some "all") false none
      (some 0) 0).1 ≠ DMReturn.result r) ∧
    (∀ f, lookupDecisionFunction (some "all") = some f →
      dependency_monkey envTwo proj0 "out" none (some "all") false none
        (some 0) 0 =
        (DMReturn.exitCode 3,
         [Effect.logError "Number of stacks has to be a positive integer"])) ∧
    (dependency_monkey envTwo proj0 "out" none (some "all") false none
      (some 0) 0).2.all Effect.isLogOnly = true :=
  nonpositive_count_aborts envTwo proj0 "out" none (some "all") false none 0 0
    (by decide)

/-- Claim C10: every query of a successful digest-filling pass goes to the
first configured warehouse, an already-hashed package is left unmodified, and
a hashless package receives exactly the `sha256:`-prefixed digests returned
by that warehouse, in the returned order. -/
theorem digest_format_and_first_warehouse (env : Env) (p q : Project)
    (effs : List Effect) (w : String) (ws : List String)
    (hw : env.warehouses = w :: ws)
    (h : _fill_package_digests env p = Except.ok (q, effs)) :
    (∀ a ∈ effs, ∃ pkg v, a = Effect.indexQuery w pkg v) ∧
    List.Forall₂ (fun pv qv =>
      (pv.hashes ≠ [] → qv = pv) ∧
      (pv.hashes = [] →
        ∃ hs, env.getPackageHashes w pv.name pv.locked_version = Except.ok hs ∧
          qv = { pv with hashes := pv.hashes ++ hs.map sha256Entry }))
      (allPackages p) (allPackages q) := by
  obtain ⟨e1, f1, _⟩ := fill_digests_spec env w ws p q effs hw h
  refine ⟨?_, f1⟩
  intro a ha
  rw [e1] at ha
  obtain ⟨pv, _, hpv⟩ := List.mem_filterMap.mp ha
  by_cases hc : pv.hashes = []
  · rw [if_pos hc] at hpv
    refine ⟨pv.name, pv.locked_version, ?_⟩
    injection hpv with hh
    exact hh.symm
  · rw [if_neg hc] at hpv
    cases hpv

/-- Witness for C10 on the concrete mixed project: the hashed package is
untouched and the bare package receives exactly the prefixed warehouse
digests. -/
theorem digest_format_and_first_warehouse_witness :
    List.Forall₂ (fun pv qv =>
      (pv.hashes ≠ [] → qv = pv) ∧
      (pv.hashes = [] →
        ∃ hs, envMix.getPackageHashes "w" pv.name pv.locked_version = Except.ok hs ∧
          qv = { pv with hashes := pv.hashes ++ hs.map sha256Entry }))
      (allPackages projMix) (allPackages projMixFilled) :=
  (digest_format_and_first_warehouse envMix projMix projMixFilled effsMix "w" []
    rfl (by decide)).2

/-- Claim C1: with a count bound N ≥ 1, an index whose lookups succeed and an
output function that does not raise, the run stops after the Nth generated
project and reports as computed exactly min(N, number of projects the
decision function admits in the walk). -/
theorem count_bound_stops_after_nth (env : Env) (project : Project)
    (output_function : Project → Nat → Except String (Option String × List Effect))
    (decision_function : DecisionFunction) (g : Rng) (N : Nat)
    (hN : 1 ≤ N)
    (hfill : ∀ p, isOkE (_fill_package_digests env p) = true)
    (houtf : ∀ p k, isOkE (output_function p k) = true) :
    ∃ r effs,
      _do_dependency_monkey env project output_function decision_function
        (some (N : Int)) false g = Except.ok (r, effs) ∧
      r.computed = min N (walkedProjects env project decision_function g).length := by
  obtain ⟨out2, effs2, h⟩ := dmLoop_norm_spec env output_function (some (N : Int))
    hfill houtf (walkedProjects env project decision_function g) 0 [] [Effect.graphBuilt]
  refine ⟨_, effs2, h, ?_⟩
  show loopCount (some (N : Int)) (walkedProjects env project decision_function g) 0 = _
  rw [loopCount_min N _ 0 (by omega)]
  simp

/-- Witness for C1: one direct dependency with three candidate versions and
the exhaustive decision function; a count bound of 1 computes exactly 1. -/
theorem count_bound_stops_after_nth_witness :
    (walkedProjects envThree proj0 allDecision 0).length = 3 ∧
    ∃ r effs,
      _do_dependency_monkey envThree proj0 (dirOutput "out") allDecision
        (some ((1 : Nat) : Int)) false 0 = Except.ok (r, effs) ∧
      r.computed = min 1 (walkedProjects envThree proj0 allDecision 0).length :=
  ⟨by decide,
   count_bound_stops_after_nth envThree proj0 (dirOutput "out") allDecision 0 1
     (by decide)
     (fun p => fill_package_digests_isOk envThree (by decide) (fun w pkg v => rfl) p)
     (fun p k => rfl)⟩

/-- Claim C5: in a directory-destination run that returned a result, the k-th
generated stack (for every 1 ≤ k ≤ computed) was written into its own
subdirectory named by the 5-digit zero-padded sequence number, with both a
Pipfile and a Pipfile.lock inside it. -/
theorem directory_sink_layout (env : Env) (project : Project) (output : String)
    (seed : Option Int) (decision : Option String) (context : Option String)
    (count : Option Int) (g0 : Rng) (r : DMResult) (effs : List Effect) (k : Nat)
    (hout1 : strStartsWith output "https://" = false)
    (hout2 : strStartsWith output "http://" = false)
    (hout3 : ¬ output = "-")
    (h : dependency_monkey env project output seed decision false context count g0 =
      (DMReturn.result r, effs))
    (hk1 : 1 ≤ k) (hk2 : k ≤ r.computed) :
    Effect.makedirs (osPathJoin output (pad5 k)) ∈ effs ∧
    ∃ q, Effect.toFiles (osPathJoin (osPathJoin output (pad5 k)) "Pipfile")
          (osPathJoin (osPathJoin output (pad5 k)) "Pipfile.lock") q ∈ effs := by
  cases hd : lookupDecisionFunction decision with
  | none => simp [dependency_monkey, hd] at h
  | some decision_function =>
    simp only [dependency_monkey, hd] at h
    by_cases hcnp : countNonPositive count = true
    · rw [if_pos hcnp] at h
      simp at h
    · rw [if_neg hcnp, hout1, hout2] at h
      rw [if_neg (by simp)] at h
      rw [if_neg hout3] at h
      by_cases hct : contextTruthy context = true
      · rw [if_pos hct] at h
        simp at h
      · rw [if_neg hct] at h
        cases hdm : _do_dependency_monkey env project (dirOutput output)
            decision_function count false (randomSeed seed g0) with
        | error e => simp [hdm] at h
        | ok re =>
          simp only [hdm, Prod.mk.injEq, DMReturn.result.injEq] at h
          obtain ⟨h1, h2⟩ := h
          subst h1
          rw [← h2]
          obtain ⟨hm, q, hq⟩ := dmLoop_dir_mem env output count
            (walkedProjects env project decision_function (randomSeed seed g0))
            0 [] [Effect.graphBuilt] re.2 re.1 hdm k (by omega) hk2
          exact ⟨List.mem_append_right _ hm, q, List.mem_append_right _ hq⟩

/-- Literal evaluation of the two-stack directory run. -/
theorem run_two_eval :
    dependency_monkey envTwo proj0 "out" none (some "all") false none none 0 =
      (DMReturn.result runTwoResult, runTwoEffs) := by decide

/-- Witness for C5: generating 2 stacks into a directory writes subdirectory
00001 and 00002, each with both files. -/
theorem directory_sink_layout_witness :
    (Effect.makedirs (osPathJoin "out" (pad5 1)) ∈ runTwoEffs ∧
      ∃ q, Effect.toFiles (osPathJoin (osPathJoin "out" (pad5 1)) "Pipfile")
            (osPathJoin (osPathJoin "out" (pad5 1)) "Pipfile.lock") q ∈ runTwoEffs) ∧
    (Effect.makedirs (osPathJoin "out" (pad5 2)) ∈ runTwoEffs ∧
      ∃ q, Effect.toFiles (osPathJoin (osPathJoin "out" (pad5 2)) "Pipfile")
            (osPathJoin (osPathJoin "out" (pad5 2)) "Pipfile.lock") q ∈ runTwoEffs) :=
  ⟨directory_sink_layout envTwo proj0 "out" none (some "all") none none 0
      runTwoResult runTwoEffs 1 (by decide) (by decide) (by decide) run_two_eval
      (by decide) (by decide),
   directory_sink_layout envTwo proj0 "out" none (some "all") none none 0
      runTwoResult runTwoEffs 2 (by decide) (by decide) (by decide) run_two_eval
      (by decide) (by decide)⟩

/-- Claim C6 (code evaluation): in an https-destination run the wrapper's
call to the unbound module name amun_inspect raises NameError on every
generated project; the exception is caught and logged per item and the run
continues, but no project is ever submitted and no inspection id is ever
recorded in the output list. -/
theorem amun_submission_never_happens :
    ((dependency_monkey envTwo proj0 "https://amun.example.org" none (some "all")
      false none none 0).1 = DMReturn.result { output := [], computed := 2 }) ∧
    ((dependency_monkey envTwo proj0 "https://amun.example.org" none (some "all")
      false none none 0).2.all (fun a => match a with
        | Effect.amunSubmit _ _ => false
        | _ => true)) = true ∧
    ((dependency_monkey envTwo proj0 "https://amun.example.org" none (some "all")
      false none none 0).2.countP (fun a => match a with
        | Effect.logException _ => true
        | _ => false)) = 2 :=
  ⟨by decide, by decide, by decide⟩

/-- Claim C7: in dry-run mode the walk and the digest filling happen exactly
as in a normal run (same computed count, identical traversal effects), the
output function is never invoked, the recorded output list stays empty and
the dry-run effect trace holds traversal effects only. -/
theorem dry_run_skips_sink_dispatch (env : Env) (project : Project)
    (output_function : Project → Nat → Except String (Option String × List Effect))
    (decision_function : DecisionFunction) (count : Option Int) (g : Rng)
    (hfill : ∀ p, isOkE (_fill_package_digests env p) = true)
    (houtf : ∀ p k, isOkE (output_function p k) = true)
    (houtq : ∀ p k x, output_function p k = Except.ok x →
      x.2.filter Effect.isTraversal = []) :
    ∃ rn effsn,
      _do_dependency_monkey env project output_function decision_function count
        false g = Except.ok (rn, effsn) ∧
      _do_dependency_monkey env project output_function decision_function count
        true g =
        Except.ok ({ output := [], computed := rn.computed },
          Effect.graphBuilt ::
            fillEffs env count (walkedProjects env project decision_function g) 0) ∧
      (∀ a ∈ Effect.graphBuilt ::
          fillEffs env count (walkedProjects env project decision_function g) 0,
        a.isTraversal = true) ∧
      effsn.filter Effect.isTraversal =
        Effect.graphBuilt ::
          fillEffs env count (walkedProjects env project decision_function g) 0 := by
  obtain ⟨out2, effs2, hn⟩ := dmLoop_norm_spec env output_function count hfill houtf
    (walkedProjects env project decision_function g) 0 [] [Effect.graphBuilt]
  have hd := dmLoop_dry_spec env output_function count hfill
    (walkedProjects env project decision_function g) 0 [] [Effect.graphBuilt]
  have hfl := dmLoop_norm_filter env output_function count houtq
    (walkedProjects env project decision_function g) 0 [] [Effect.graphBuilt]
    effs2 _ hn
  refine ⟨_, effs2, hn, ?_, ?_, ?_⟩
  · simpa using hd
  · intro a ha
    rcases List.mem_cons.mp ha with h1 | h1
    · rw [h1]; rfl
    · exact fillEffs_all_traversal env count _ 0 a h1
  · simpa [Effect.isTraversal] using hfl

/-- Helper: the directory output function emits no traversal effects. -/
theorem dirOutput_sink_effects (dir : String) :
    ∀ (p : Project) (k : Nat) (x : Option String × List Effect),
      dirOutput dir p k = Except.ok x → x.2.filter Effect.isTraversal = [] := by
  intro p k x h
  simp only [dirOutput, _dm_amun_directory_output, Except.ok.injEq] at h
  rw [← h]
  rfl

/-- Witness for C7 on the three-candidate graph with the directory sink. -/
theorem dry_run_skips_sink_dispatch_witness :
    ∃ rn effsn,
      _do_dependency_monkey envThree proj0 (dirOutput "out") allDecision none
        false 0 = Except.ok (rn, effsn) ∧
      _do_dependency_monkey envThree proj0 (dirOutput "out") allDecision none
        true 0 =
        Except.ok ({ output := [], computed := rn.computed },
          Effect.graphBuilt ::
            fillEffs envThree none (walkedProjects envThree proj0 allDecision 0) 0) ∧
      (∀ a ∈ Effect.graphBuilt ::
          fillEffs envThree none (walkedProjects envThree proj0 allDecision 0) 0,
        a.isTraversal = true) ∧
      effsn.filter Effect.isTraversal =
        Effect.graphBuilt ::
          fillEffs envThree none (walkedProjects envThree proj0 allDecision 0) 0 :=
  dry_run_skips_sink_dispatch envThree proj0 (dirOutput "out") allDecision none 0
    (fun p => fill_package_digests_isOk envThree (by decide) (fun w pkg v => rfl) p)
    (fun p k => rfl)
    (dirOutput_sink_effects "out")

/-- Claim C8 (code evaluation): with destination "-" the stdout sink
evaluates the module name json, which was never imported: the first generated
project raises an uncaught NameError and the run aborts instead of
serializing anything — even though the walk admits two projects. -/
theorem stdout_sink_raises_nameerror :
    (dependency_monkey envTwo proj0 "-" none (some "all") false none none 0).1 =
      DMReturn.pyError "NameError: name json is not defined" ∧
    (walkedProjects envTwo proj0 allDecision 0).length = 2 :=
  ⟨by decide, by decide⟩
